import Mathlib

/-!
Shallow embedding of the MiLCo supplier batch generator
(`src/assets/admin.js`, second revision in the file: the `processBtn`
handler with full classification, verification counters and the
`invalid-rows` bucket), together with the ledger normalizer/merger and
the raw-report column check.

Conventions of the embedding:
* A parsed CSV/XLSX row (a JS object produced by Papa/XLSX with
  `header: true`) is an association list `Row := List (String × String)`;
  `jsGet r k` is `r[k]`, returning `none` for an absent key (JS
  `undefined`).
* JS numbers that matter here are finite decimals; they are modeled by
  `ℚ`.  A failed parse (JS `NaN`, rejected by `Number.isFinite`) is
  `none : Option ℚ`.  `jsNumber` models the finite-decimal fragment of
  the JS `Number()` conversion (optional sign, digits, one decimal
  point; the empty string converts to `0`), which covers the cell
  values this tool consumes.
* `money n` (JS `Number(n).toFixed(2)`) is modeled by its numeric
  value: the argument rounded to two decimal places.  Fields holding a
  `money`-formatted string are therefore `ℚ` fields holding the rounded
  value; re-parsing such a field (`parseAmount(r["AMOUNT"]) || 0` in
  the verification totals) yields the field itself.
* String operations are implemented structurally on `List Char` so
  that all definitions evaluate inside the kernel.
-/

/-- JS `String.prototype.trim` on a character list: drop leading and
trailing whitespace. -/
def trimChars (cs : List Char) : List Char :=
  ((cs.dropWhile Char.isWhitespace).reverse.dropWhile Char.isWhitespace).reverse

/-- `clean` from admin.js: `(s ?? "").toString().trim()` applied to a
string that is known to be present. -/
def clean (s : String) : String :=
  String.mk (trimChars s.toList)

/-- `clean` applied to a possibly-`undefined` JS value (`s ?? ""`). -/
def cleanCell (v : Option String) : String :=
  clean (v.getD "")

/-- Splits a character list into its maximal whitespace-free words
(the accumulator holds the current word reversed). -/
def wordsAux : List Char → List Char → List (List Char)
  | [], cur => if cur.isEmpty then [] else [cur.reverse]
  | c :: rest, cur =>
    if c.isWhitespace then
      if cur.isEmpty then wordsAux rest [] else cur.reverse :: wordsAux rest []
    else
      wordsAux rest (c :: cur)

/-- Joins words with single spaces (inverse of run-collapsing). -/
def joinSpace : List (List Char) → List Char
  | [] => []
  | [w] => w
  | w :: rest => w ++ ' ' :: joinSpace rest

/-- `normName` from admin.js:
`(s ?? "").toString().trim().replace(/\s+/g, " ").toUpperCase()`.
Trimming and collapsing each whitespace run to a single space is the
same as splitting into words and re-joining with single spaces; the
uppercasing is applied to the joined result, as in the source. -/
def normName (s : String) : String :=
  String.mk ((joinSpace (wordsAux s.toList [])).map Char.toUpper)

/-- The words of a string with each character uppercased: the canonical
form under case, surrounding-whitespace and whitespace-run differences. -/
def wordsUpper (s : String) : List (List Char) :=
  (wordsAux s.toList []).map (List.map Char.toUpper)

/-- Digit-list to number, most significant first (the value of a run of
ASCII digits). -/
def digitsToNat (cs : List Char) : Nat :=
  cs.foldl (fun n c => 10 * n + (c.toNat - 48)) 0

/-- Unsigned decimal literal: `123`, `123.`, `123.45`, `.45`.
Anything else (in particular the empty string) is `NaN`. -/
def parseUnsignedDec (cs : List Char) : Option ℚ :=
  let ip := cs.takeWhile Char.isDigit
  let rest := cs.dropWhile Char.isDigit
  match rest with
  | [] => if ip.isEmpty then none else some ((digitsToNat ip : ℚ))
  | '.' :: frac =>
    if frac.all Char.isDigit ∧ ¬(ip.isEmpty ∧ frac.isEmpty) then
      some ((digitsToNat ip : ℚ) + (digitsToNat frac : ℚ) / ((10 : ℚ) ^ frac.length))
    else none
  | _ => none

/-- The finite-decimal fragment of the JS `Number()` conversion:
whitespace is trimmed, the empty string converts to `0`, an optional
sign is followed by a decimal literal; `none` is JS `NaN`. -/
def jsNumber (s : String) : Option ℚ :=
  match trimChars s.toList with
  | [] => some 0
  | '+' :: cs => parseUnsignedDec cs
  | '-' :: cs => (parseUnsignedDec cs).map (fun q => -q)
  | cs => parseUnsignedDec cs

/-- `replace(/^M\s*/i, "")`: drop one leading `M`/`m` and the
whitespace run after it. -/
def stripLeadM : List Char → List Char
  | [] => []
  | c :: rest =>
    if c = 'M' ∨ c = 'm' then rest.dropWhile Char.isWhitespace else c :: rest

/-- `parseAmount` from admin.js: clean the (possibly absent) cell; the
empty string is `NaN`; otherwise strip all commas and an optional
leading currency marker `M`, then convert with `Number()`. -/
def parseAmount (v : Option String) : Option ℚ :=
  let s := cleanCell v
  if s = "" then none
  else jsNumber (String.mk (stripLeadM (s.toList.filter (fun c => c ≠ ','))))

/-- Numeric value of `money n` = `Number(n).toFixed(2)` for a finite
`n`: the amount rounded to two decimal places. -/
def money (q : ℚ) : ℚ :=
  (round (q * 100) : ℤ) / 100

/-- JS `String(n)` for the numbers appearing here (integral years print
with no decimal point; the non-integral case keeps the rational
rendering, which no verified property depends on). -/
def jsNumToString (q : ℚ) : String :=
  if q.den = 1 then toString q.num else toString q

/-- `MONTHS` from admin.js. -/
def MONTHS : List String :=
  ["January", "February", "March", "April", "May", "June",
   "July", "August", "September", "October", "November", "December"]

/-- `monthIndex` from admin.js:
`MONTHS.findIndex(x => x.toUpperCase() === clean(m).toUpperCase())`,
with JS `-1` modeled as `none`. -/
def monthIndexOpt (m : String) : Option Nat :=
  MONTHS.findIdx? (fun x => x.toList.map Char.toUpper = (trimChars m.toList).map Char.toUpper)

/-! ## Rows, registry, and output entry shapes -/

/-- A parsed CSV/XLSX row with named columns: a JS object as an
association list from column label to cell text.  An absent key is JS
`undefined`. -/
abbrev Row := List (String × String)

/-- `r[k]` on a parsed row: the first binding of the key, `none` when
the key is absent. -/
def jsGet (r : Row) (k : String) : Option String :=
  (r.find? (fun kv => kv.1 = k)).map (fun kv => kv.2)

/-- `isAllEmptyRow` from admin.js: no cell is non-empty after
trimming. -/
def isAllEmptyRow (r : Row) : Bool :=
  r.all (fun kv => clean kv.2 = "")

/-- One row of `banking-details.csv`, holding the six columns the
batch generator reads.  A column that is empty or absent in the file is
the empty string (every access in the source is through `clean`, which
maps both to `""`; `COMPANY NAME` is used raw, and is `""` in the CSV
for a missing value). -/
structure Supplier where
  companyName : String
  account : String
  branch : String
  momo : String
  momoNumber : String
  momoNames : String
deriving Repr, DecidableEq

/-- The supplier index: `banking.forEach(r => supplierMap.set(normName(r["COMPANY NAME"]), r))`
— later rows overwrite earlier ones with the same normalized key. -/
def buildSupplierMap (banking : List Supplier) : String → Option Supplier :=
  banking.foldl
    (fun m s => fun k => if k = normName s.companyName then some s else m k)
    (fun _ => none)

/-- A `bank-payment-batch.csv` row (`NAME, ACCOUNT, BRANCH, AMOUNT, COMMENT`). -/
structure BankEntry where
  name : String
  account : String
  branch : String
  amount : ℚ
  comment : String
deriving Repr, DecidableEq

/-- A `momo-payment-batch.csv` row
(`NAME, MOMO PROVIDER, MOMO NUMBER, MOMO NAMES, AMOUNT, COMMENT`). -/
structure MomoEntry where
  name : String
  momoProvider : String
  momoNumber : String
  momoNames : String
  amount : ℚ
  comment : String
deriving Repr, DecidableEq

/-- An `exceptions.csv` row (`COMPANY NAME, AMOUNT, MODE, MONTH, YEAR, ISSUE`). -/
structure ExcEntry where
  companyName : String
  amount : ℚ
  mode : String
  month : String
  year : String
  issue : String
deriving Repr, DecidableEq

/-- An `invalid-rows.csv` row
(`ROW_NUMBER, COMPANY NAME, SUM of COST, COMMENT, MONTH, YEAR, ISSUE`). -/
structure InvalidEntry where
  rowNumber : Nat
  companyName : String
  sumOfCost : String
  comment : String
  month : String
  year : String
  issue : String
deriving Repr, DecidableEq

/-- A ledger (`transactions.csv`) row
(`MONTH, YEAR, PERIOD, COMPANY NAME, AMOUNT, MODE, REFERENCE`).
`year` is the numeric value of the `YEAR` cell (`none` models the
empty `YEAR` string a legacy row is upgraded to when no finite year
could be recovered). -/
structure LedgerEntry where
  month : String
  year : Option ℚ
  period : String
  companyName : String
  amount : ℚ
  mode : String
  reference : String
deriving Repr, DecidableEq

/-! ## The classification loop (admin.js `processBtn` handler) -/

/-- `normName(rawName)` for a sales row. -/
def salesNameKey (r : Row) : String :=
  normName ((jsGet r "COMPANY NAME").getD "")

/-- `parseAmount(r["SUM of COST"])` for a sales row. -/
def salesAmount (r : Row) : Option ℚ :=
  parseAmount (jsGet r "SUM of COST")

/-- `clean(r["COMMENT"])`. -/
def salesComment (r : Row) : String :=
  cleanCell (jsGet r "COMMENT")

/-- `clean(r["MONTH"])`. -/
def salesMonth (r : Row) : String :=
  cleanCell (jsGet r "MONTH")

/-- `Number(clean(r["YEAR"]))` — note that an empty or absent `YEAR`
cell converts to `0`, which passes the `Number.isFinite` check. -/
def salesYear (r : Row) : Option ℚ :=
  jsNumber (cleanCell (jsGet r "YEAR"))

/-- JS `Array.prototype.join(sep)`. -/
def joinWith (sep : String) : List String → String
  | [] => ""
  | [x] => x
  | x :: rest => x ++ sep ++ joinWith sep rest

/-- The row-validation reasons collected by the classification loop, in
source order: missing name key, non-finite amount, missing month,
non-finite year. -/
def rowReasons (r : Row) : List String :=
  (if salesNameKey r = "" then ["Missing COMPANY NAME"] else []) ++
  (if (salesAmount r).isNone then ["Invalid SUM of COST (not a number)"] else []) ++
  (if salesMonth r = "" then ["Missing MONTH"] else []) ++
  (if (salesYear r).isNone then ["Invalid YEAR"] else [])

/-- The `invalidRows.push({...})` record for the row at (0-based) index
`i` of the filtered `sales` array: `ROW_NUMBER: i + 2` (source comment:
"+2 (header + 1-based)"), raw cells echoed back cleaned, and the
reasons joined with `"; "`. -/
def mkInvalid (i : Nat) (r : Row) : InvalidEntry :=
  { rowNumber := i + 2
    companyName := cleanCell (jsGet r "COMPANY NAME")
    sumOfCost := cleanCell (jsGet r "SUM of COST")
    comment := salesComment r
    month := salesMonth r
    year := cleanCell (jsGet r "YEAR")
    issue := joinWith "; " (rowReasons r) }

/-- `amount >= threshold ? "BANK" : "MOMO"`. -/
def modeOf (threshold amount : ℚ) : String :=
  if threshold ≤ amount then "BANK" else "MOMO"

/-- The `period` local of the loop body: `` `${month} ${year}` ``. -/
def rowPeriod (r : Row) (year : ℚ) : String :=
  salesMonth r ++ " " ++ jsNumToString year

/-- The `reference` local of the loop body:
`` comment || `MiLCo ${period} Sales` ``. -/
def rowReference (r : Row) (year : ℚ) : String :=
  if salesComment r = "" then "MiLCo " ++ rowPeriod r year ++ " Sales" else salesComment r

/-- What one iteration of the classification loop appends: exactly one
of an invalid row, an exception, or a batch entry mirrored by a new
ledger entry. -/
inductive RowOutcome where
  | invalid (e : InvalidEntry)
  | exc (e : ExcEntry)
  | bank (b : BankEntry) (l : LedgerEntry)
  | momo (m : MomoEntry) (l : LedgerEntry)
deriving Repr, DecidableEq

/-- One iteration of the classification loop over `sales[i] = r`.
The source computes `reasons` and tests `reasons.length`; here the
same four conditions appear as the `match` on the two parsed numbers
plus the `if` on the two string tests, and the pushed invalid record is
rebuilt by `mkInvalid` from the same cells. -/
def processRow (t : ℚ) (reg : String → Option Supplier) (i : Nat) (r : Row) : RowOutcome :=
  match salesAmount r, salesYear r with
  | some amount, some year =>
    if salesNameKey r = "" ∨ salesMonth r = "" then
      .invalid (mkInvalid i r)
    else
      let month := salesMonth r
      let mode := modeOf t amount
      let period := rowPeriod r year
      let reference := rowReference r year
      match reg (salesNameKey r) with
      | none =>
        .exc { companyName := cleanCell (jsGet r "COMPANY NAME")
               amount := money amount
               mode := mode
               month := month
               year := jsNumToString year
               issue := "Supplier not found in banking-details.csv" }
      | some supplier =>
        if mode = "BANK" then
          let account := clean supplier.account
          let branch := clean supplier.branch
          if account = "" ∨ branch = "" then
            .exc { companyName := supplier.companyName
                   amount := money amount
                   mode := "BANK"
                   month := month
                   year := jsNumToString year
                   issue := joinWith ", "
                     ((if account = "" then ["Missing Bank Account"] else []) ++
                      (if branch = "" then ["Missing Branch Code"] else [])) }
          else
            .bank
              { name := supplier.companyName
                account := account
                branch := branch
                amount := money amount
                comment := reference }
              { month := month
                year := some year
                period := period
                companyName := supplier.companyName
                amount := money amount
                mode := "BANK"
                reference := reference }
        else
          let momoProvider := clean supplier.momo
          let momoNumber := clean supplier.momoNumber
          let momoNames := clean supplier.momoNames
          if momoProvider = "" ∨ momoNumber = "" ∨ momoNames = "" then
            .exc { companyName := supplier.companyName
                   amount := money amount
                   mode := "MOMO"
                   month := month
                   year := jsNumToString year
                   issue := joinWith ", "
                     ((if momoProvider = "" then ["Missing MOMO Provider"] else []) ++
                      (if momoNumber = "" then ["Missing MOMO Number"] else []) ++
                      (if momoNames = "" then ["Missing MOMO Names"] else [])) }
          else
            .momo
              { name := supplier.companyName
                momoProvider := momoProvider
                momoNumber := momoNumber
                momoNames := momoNames
                amount := money amount
                comment := reference }
              { month := month
                year := some year
                period := period
                companyName := supplier.companyName
                amount := money amount
                mode := "MOMO"
                reference := reference }
  | _, _ => .invalid (mkInvalid i r)

/-- The five output collections filled by the classification loop. -/
structure Buckets where
  bankBatch : List BankEntry
  momoBatch : List MomoEntry
  exceptions : List ExcEntry
  invalidRows : List InvalidEntry
  ledgerNew : List LedgerEntry
deriving Repr, DecidableEq

/-- The empty collections, as initialized before the loop. -/
def emptyBuckets : Buckets :=
  ⟨[], [], [], [], []⟩

/-- Prepends one iteration's pushes in front of the collections built
by the later iterations. -/
def bucketsCons (o : RowOutcome) (b : Buckets) : Buckets :=
  match o with
  | .invalid e => { b with invalidRows := e :: b.invalidRows }
  | .exc e => { b with exceptions := e :: b.exceptions }
  | .bank be le => { b with bankBatch := be :: b.bankBatch, ledgerNew := le :: b.ledgerNew }
  | .momo me le => { b with momoBatch := me :: b.momoBatch, ledgerNew := le :: b.ledgerNew }

/-- The classification loop from index `i` on: processes each remaining
row in order. -/
def processSalesFrom (t : ℚ) (reg : String → Option Supplier) : Nat → List Row → Buckets
  | _, [] => emptyBuckets
  | i, r :: rest => bucketsCons (processRow t reg i r) (processSalesFrom t reg (i + 1) rest)

/-- `for (let i = 0; i < sales.length; i++) { ... }`: the whole
classification loop over the filtered `sales` array. -/
def processSales (t : ℚ) (reg : String → Option Supplier) (sales : List Row) : Buckets :=
  processSalesFrom t reg 0 sales

/-- The verification check of the pass:
`nonEmpty === bankCount + momoCount + excCount + invalidCount`. -/
def verificationOk (nonEmpty : Nat) (b : Buckets) : Bool :=
  nonEmpty =
    b.bankBatch.length + b.momoBatch.length + b.exceptions.length + b.invalidRows.length

/-- `bankTotal + momoTotal + excTotal`: the "Total payable" metric.
Each reduce re-parses the `AMOUNT` field of the bucket rows
(`parseAmount(r["AMOUNT"]) || 0`), which recovers exactly the rounded
value the field was formatted from. -/
def payableTotal (b : Buckets) : ℚ :=
  (b.bankBatch.map BankEntry.amount).sum +
  (b.momoBatch.map MomoEntry.amount).sum +
  (b.exceptions.map ExcEntry.amount).sum

/-! ## Period recovery (`parseMonthYearFromText`) -/

/-- JS `\w`: ASCII letters, digits, underscore. -/
def isWordChar (c : Char) : Bool :=
  c.isAlphanum || c = '_'

/-- A `\b` word boundary holds before the current position: start of
the string or a preceding non-word character. -/
def boundaryBefore : Option Char → Bool
  | none => true
  | some p => !isWordChar p

/-- A `\b` word boundary holds after a match: end of string or a
following non-word character. -/
def boundaryAfter : List Char → Bool
  | [] => true
  | c :: _ => !isWordChar c

/-- Case-insensitive prefix match: returns the matched prefix of the
subject (in its original case) together with the rest. -/
def takeMatchCI : List Char → List Char → Option (List Char × List Char)
  | [], cs => some ([], cs)
  | _ :: _, [] => none
  | p :: ps, c :: cs =>
    if p.toUpper = c.toUpper then
      (takeMatchCI ps cs).map (fun x => (c :: x.1, x.2))
    else none

/-- Tries the month-name alternatives in `MONTHS` order at the current
position, requiring a word boundary after the match. -/
def tryMonths : List String → List Char → Option (List Char)
  | [], _ => none
  | mname :: rest, cs =>
    match takeMatchCI mname.toList cs with
    | some (matched, restCs) =>
      if boundaryAfter restCs then some matched else tryMonths rest cs
    | none => tryMonths rest cs

/-- Leftmost match of `\b(January|...|December)\b` (case-insensitive):
scans positions left to right, carrying the previous character for the
leading boundary. -/
def findMonthAux (prev : Option Char) : List Char → Option (List Char)
  | [] => none
  | c :: rest =>
    match (if boundaryBefore prev then tryMonths MONTHS (c :: rest) else none) with
    | some m => some m
    | none => findMonthAux (some c) rest

/-- Leftmost match of `\b(\d{4})\b`: four digits delimited by word
boundaries; returns the digit substring. -/
def findYearAux (prev : Option Char) : List Char → Option (List Char)
  | [] => none
  | c :: rest =>
    let four := (c :: rest).take 4
    if boundaryBefore prev ∧ four.length = 4 ∧ four.all Char.isDigit ∧
        boundaryAfter ((c :: rest).drop 4) then
      some four
    else
      findYearAux (some c) rest

/-- `parseMonthYearFromText` from admin.js (second revision): cleans
the text, looks for a month name and, independently, a 4-digit year;
on success returns the matched month text, the numeric year, and the
period string built from the two matched substrings. -/
def parseMonthYearFromText (text : String) : Option (String × ℚ × String) :=
  let t := trimChars text.toList
  match findMonthAux none t, findYearAux none t with
  | some mcs, some ycs =>
    some (String.mk mcs, (digitsToNat ycs : ℚ), String.mk (mcs ++ ' ' :: ycs))
  | _, _ => none

/-! ## Ledger normalization and merge -/

/-- `r["COMPANY NAME"] ?? r["COMPANY"] ?? r["NAME"]` (the `??` chain
falls through only on an absent key, not on an empty cell). -/
def ledgerCompanyCell (r : Row) : Option String :=
  (jsGet r "COMPANY NAME").orElse (fun _ => (jsGet r "COMPANY").orElse (fun _ => jsGet r "NAME"))

/-- `clean(r["COMPANY NAME"] ?? r["COMPANY"] ?? r["NAME"])`. -/
def ledgerCompany (r : Row) : String :=
  cleanCell (ledgerCompanyCell r)

/-- `Number(r["AMOUNT"] ?? r["Sum"] ?? r["TOTAL"])`: `NaN` when all
three keys are absent, otherwise the conversion of the first present
cell. -/
def ledgerAmount (r : Row) : Option ℚ :=
  ((jsGet r "AMOUNT").orElse (fun _ => (jsGet r "Sum").orElse (fun _ => jsGet r "TOTAL"))).bind jsNumber

/-- A raw ledger row survives `normalizeLedgerRows`
(`if (!company || !Number.isFinite(amount)) continue`). -/
def ledgerRowValid (r : Row) : Bool :=
  !(ledgerCompany r = "") && (ledgerAmount r).isSome

/-- The month/year/period recovery steps of `normalizeLedgerRows`,
returning the final `(month, year, period)` triple before the row is
emitted. -/
def ledgerRecover (r : Row) : String × Option ℚ × String :=
  let reference := cleanCell (((jsGet r "REFERENCE").orElse
    (fun _ => (jsGet r "COMMENT").orElse (fun _ => jsGet r "PERIOD"))).orElse (fun _ => some ""))
  let month0 := cleanCell (jsGet r "MONTH")
  let year0 := (jsGet r "YEAR").bind jsNumber
  let period0 := cleanCell (jsGet r "PERIOD")
  let s1 : String × Option ℚ × String :=
    if (month0 = "" ∨ year0 = none) ∧ period0 ≠ "" then
      match parseMonthYearFromText period0 with
      | some (m, yq, p) => (m, some yq, p)
      | none => (month0, year0, period0)
    else (month0, year0, period0)
  let month1 := s1.1
  let year1 := s1.2.1
  let period1 := s1.2.2
  let s2 : String × Option ℚ × String :=
    if (month1 = "" ∨ year1 = none) ∧ reference ≠ "" then
      match parseMonthYearFromText reference with
      | some (m, yq, p) =>
        ((if month1 = "" then m else month1),
         (if year1.isSome then year1 else some yq),
         (if period1 = "" then p else period1))
      | none => (month1, year1, period1)
    else (month1, year1, period1)
  let month2 := s2.1
  let year2 := s2.2.1
  let period2 := s2.2.2
  let period3 :=
    if period2 = "" ∧ month2 ≠ "" ∧ year2.isSome then
      month2 ++ " " ++ jsNumToString (year2.getD 0)
    else period2
  (month2, year2, period3)

/-- One iteration of the `normalizeLedgerRows` loop: upgrades a raw
ledger row to the canonical shape, or drops it (`continue`) when the
company is empty or the amount is not a finite number. -/
def upgradeLedgerRow (r : Row) : Option LedgerEntry :=
  let company := ledgerCompany r
  let mode := cleanCell (jsGet r "MODE")
  let reference := cleanCell (((jsGet r "REFERENCE").orElse
    (fun _ => (jsGet r "COMMENT").orElse (fun _ => jsGet r "PERIOD"))).orElse (fun _ => some ""))
  let rec3 := ledgerRecover r
  match ledgerAmount r with
  | none => none
  | some amount =>
    if company = "" then none
    else
      some { month := rec3.1
             year := rec3.2.1
             period := rec3.2.2
             companyName := company
             amount := money amount
             mode := mode
             reference := reference }

/-- `normalizeLedgerRows` from admin.js: upgrade every row, silently
dropping the invalid ones. -/
def normalizeLedgerRows (rows : List Row) : List LedgerEntry :=
  rows.filterMap upgradeLedgerRow

/-- `Number(a.YEAR) || 0` on a ledger entry: the numeric year, with an
empty (or unparsable) `YEAR` cell contributing `0`. -/
def yearKey (e : LedgerEntry) : ℚ :=
  (e.year).getD 0

/-- `monthIndex(a.MONTH)` mapped through `ma === -1 ? 99 : ma`. -/
def monthKeyOf (e : LedgerEntry) : Nat :=
  (monthIndexOpt e.month).getD 99

/-- The total preorder induced by the ledger sort comparator
(`comparator(a,b) <= 0`): year ascending, then month position with
unrecognized months keyed `99`. -/
def ledgerLe (a b : LedgerEntry) : Bool :=
  decide (yearKey a < yearKey b) ||
    (decide (yearKey a = yearKey b) && decide (monthKeyOf a ≤ monthKeyOf b))

/-- `ledgerUpdated.sort(comparator)`: JS `Array.prototype.sort` is
stable, so it is the stable merge sort by the comparator's preorder. -/
def sortLedger (l : List LedgerEntry) : List LedgerEntry :=
  l.mergeSort ledgerLe

/-- `[...ledgerExisting, ...ledgerNew].sort(comparator)`. -/
def mergeLedger (existing newEntries : List LedgerEntry) : List LedgerEntry :=
  sortLedger (existing ++ newEntries)

/-! ## The whole pass -/

/-- `requiredCols` from admin.js. -/
def requiredCols : List String :=
  ["COMPANY NAME", "SUM of COST", "MONTH", "YEAR"]

/-- `requiredCols.filter(c => !hasOwnProperty(sales[0] || {}, c))`:
the required columns absent from the first non-empty sales row. -/
def missingCols (sales : List Row) : List String :=
  requiredCols.filter (fun c => (jsGet ((sales.head?).getD []) c).isNone)

/-- Result of one `processBtn` pass: either the single
template-mismatch error, reported before any row is classified and
producing no outputs, or the five buckets plus the merged ledger. -/
inductive PassResult where
  | templateMismatch (missing : List String)
  | done (buckets : Buckets) (ledgerUpdated : List LedgerEntry)
deriving Repr, DecidableEq

/-- The `processBtn` pass over one sales snapshot: filter out
all-empty rows, check the required columns on the sample row, classify
every remaining row, and merge the new ledger entries into the
normalized existing ledger. -/
def runPass (t : ℚ) (reg : String → Option Supplier) (ledgerRaw : List Row)
    (salesRaw : List Row) : PassResult :=
  let sales := salesRaw.filter (fun r => !isAllEmptyRow r)
  let missing := missingCols sales
  if missing.isEmpty then
    let b := processSales t reg sales
    .done b (mergeLedger (normalizeLedgerRows ledgerRaw) b.ledgerNew)
  else
    .templateMismatch missing

/-! ## Measurement functions for the verified properties -/

/-- The amount a single loop iteration contributes to the verification
totals (the `AMOUNT` field of the bucket row it pushed; invalid rows
carry no trusted amount). -/
def outcomeAmount : RowOutcome → ℚ
  | .invalid _ => 0
  | .exc e => e.amount
  | .bank b _ => b.amount
  | .momo m _ => m.amount

/-- The sort key realized by the ledger comparator. -/
def ledgerKey (e : LedgerEntry) : ℚ × Nat :=
  (yearKey e, monthKeyOf e)

/-- Stated from the spec side of C3: the sum of the parsed `SUM of
COST` amounts over the rows that pass row validation (the valid,
non-Invalid rows). -/
def validParsedTotal (sales : List Row) : ℚ :=
  (sales.map (fun r => if rowReasons r = [] then (salesAmount r).getD 0 else 0)).sum

/-- The same sum with each row's amount rounded to two decimals — the
value each valid row actually contributes to its bucket's `AMOUNT`
column. -/
def validRoundedTotal (sales : List Row) : ℚ :=
  (sales.map (fun r => if rowReasons r = [] then money ((salesAmount r).getD 0) else 0)).sum

/-! ## Concrete fixtures -/

/-- A registry row with complete bank and mobile-money details. -/
def wSupplierFull : Supplier :=
  { companyName := "Acme Traders", account := "12345", branch := "Main 001",
    momo := "MPESA", momoNumber := "58123456", momoNames := "John Doe" }

/-- A registry row whose mobile-money holder names are missing. -/
def wSupplierNoNames : Supplier :=
  { companyName := "Beta Ltd", account := "777", branch := "002",
    momo := "MPESA", momoNumber := "58987654", momoNames := " " }

/-- The supplier index over the two fixture registry rows. -/
def wRegistry : String → Option Supplier :=
  buildSupplierMap [wSupplierFull, wSupplierNoNames]

/-- A sales row classified to BANK (1200 ≥ 400). -/
def wRowBank : Row :=
  [("COMPANY NAME", "Acme Traders"), ("SUM of COST", "1,200.00"), ("COMMENT", ""),
   ("MONTH", "January"), ("YEAR", "2026")]

/-- A sales row classified to MOMO (350 < 400), naming the full
supplier through different case and spacing. -/
def wRowMomo : Row :=
  [("COMPANY NAME", "acme  traders"), ("SUM of COST", "350"), ("COMMENT", ""),
   ("MONTH", "January"), ("YEAR", "2026")]

/-- A sales row classified to MOMO whose supplier lacks holder names. -/
def wRowMomoNoNames : Row :=
  [("COMPANY NAME", "Beta Ltd"), ("SUM of COST", "350"), ("COMMENT", ""),
   ("MONTH", "January"), ("YEAR", "2026")]

/-- A sales row with a non-numeric amount. -/
def wRowBad : Row :=
  [("COMPANY NAME", "Acme Traders"), ("SUM of COST", "N/A"), ("COMMENT", ""),
   ("MONTH", "January"), ("YEAR", "2026")]

/-- A fully empty sales row (dropped by the non-empty filter). -/
def wRowEmpty : Row :=
  [("COMPANY NAME", ""), ("SUM of COST", ""), ("COMMENT", ""),
   ("MONTH", ""), ("YEAR", "")]

/-- An upload whose invalid row sits after a fully-empty row, so its
position among the non-empty rows differs from its original position. -/
def cexShiftSales : List Row :=
  [wRowEmpty, wRowBad]

/-- Three valid rows whose amounts have a third decimal digit, so each
bucket `AMOUNT` is rounded up by 0.004. -/
def cexRoundingSales : List Row :=
  [[("COMPANY NAME", "A"), ("SUM of COST", "1.006"), ("COMMENT", ""),
    ("MONTH", "January"), ("YEAR", "2026")],
   [("COMPANY NAME", "B"), ("SUM of COST", "1.006"), ("COMMENT", ""),
    ("MONTH", "January"), ("YEAR", "2026")],
   [("COMPANY NAME", "C"), ("SUM of COST", "1.006"), ("COMMENT", ""),
    ("MONTH", "January"), ("YEAR", "2026")]]

/-- An upload missing three of the four required columns. -/
def wMismatchSales : List Row :=
  [[("COMPANY NAME", "Acme Traders")]]

/-- The bank batch row `processRow` emits for `wRowBank`. -/
def wBankEntry : BankEntry :=
  { name := "Acme Traders", account := "12345", branch := "Main 001",
    amount := 1200, comment := "MiLCo January 2026 Sales" }

/-- The ledger row `processRow` emits alongside `wBankEntry`. -/
def wBankLedgerEntry : LedgerEntry :=
  { month := "January", year := some 2026, period := "January 2026",
    companyName := "Acme Traders", amount := 1200, mode := "BANK",
    reference := "MiLCo January 2026 Sales" }

/-! ## Helper lemmas -/

theorem joinSpace_map_toUpper : ∀ ws : List (List Char),
    joinSpace (ws.map (List.map Char.toUpper)) = (joinSpace ws).map Char.toUpper
  | [] => by simp [joinSpace]
  | [w] => by simp [joinSpace]
  | w :: v :: rest => by
    have ih := joinSpace_map_toUpper (v :: rest)
    simp only [List.map_cons, joinSpace, List.map_append] at ih ⊢
    rw [ih]
    simp [show ' '.toUpper = ' ' from rfl]

theorem normName_eq_joinSpace_wordsUpper (s : String) :
    normName s = String.mk (joinSpace (wordsUpper s)) := by
  unfold normName wordsUpper
  rw [joinSpace_map_toUpper]

theorem rowReasons_eq_nil_iff (r : Row) :
    rowReasons r = [] ↔
      (salesNameKey r ≠ "" ∧ (salesAmount r).isSome ∧ salesMonth r ≠ "" ∧ (salesYear r).isSome) := by
  unfold rowReasons
  split_ifs with h1 h2 h3 h4 <;>
    simp_all [Option.isNone_iff_eq_none, Option.isSome_iff_ne_none]

/-! ## Claim theorems -/

/-- C2: for every numeric threshold `T` and finite amount, the
classifier assigns `BANK` exactly when `amount ≥ T` — in particular an
amount equal to `T` classifies as `BANK`, and an amount below `T` as
`MOMO`. -/
theorem claim2_threshold_boundary (t a : ℚ) :
    (t ≤ a → modeOf t a = "BANK") ∧ (a < t → modeOf t a = "MOMO") ∧ modeOf t t = "BANK" := by
  unfold modeOf
  exact ⟨fun h => if_pos h, fun h => if_neg (not_le.mpr h), if_pos le_rfl⟩

theorem claim2_threshold_boundary_witness :
    modeOf 400 400 = "BANK" ∧ modeOf 400 399 = "MOMO" :=
  ⟨(claim2_threshold_boundary 400 400).1 le_rfl,
   (claim2_threshold_boundary 400 399).2.1 (by norm_num)⟩

/-- C7: when any required column is missing from the sales input (as
witnessed by the sample row), the pass stops with the single
template-mismatch report carrying the missing column names, and
produces no batch, ledger, exception or invalid output. -/
theorem claim7_structural_error_halts (t : ℚ) (reg : String → Option Supplier)
    (ledgerRaw salesRaw : List Row)
    (h : missingCols (salesRaw.filter (fun r => !isAllEmptyRow r)) ≠ []) :
    runPass t reg ledgerRaw salesRaw =
      .templateMismatch (missingCols (salesRaw.filter (fun r => !isAllEmptyRow r))) := by
  unfold runPass
  rw [if_neg]
  simpa [List.isEmpty_iff] using h

theorem claim7_structural_error_halts_witness :
    runPass 400 (buildSupplierMap []) [] wMismatchSales =
      .templateMismatch ["SUM of COST", "MONTH", "YEAR"] := by
  have h : missingCols (wMismatchSales.filter (fun r => !isAllEmptyRow r)) ≠ [] := by decide
  rw [claim7_structural_error_halts 400 (buildSupplierMap []) [] wMismatchSales h]
  decide

/-- C8: company names that differ only in letter case or in leading,
trailing or internal whitespace runs (same uppercased word sequence)
normalize to the same key, so the supplier index treats them as the
same company. -/
theorem claim8_name_normalization (s t : String) (h : wordsUpper s = wordsUpper t) :
    normName s = normName t ∧
      ∀ banking : List Supplier,
        buildSupplierMap banking (normName s) = buildSupplierMap banking (normName t) := by
  have hn : normName s = normName t := by
    rw [normName_eq_joinSpace_wordsUpper, normName_eq_joinSpace_wordsUpper, h]
  exact ⟨hn, fun banking => by rw [hn]⟩

theorem claim8_name_normalization_witness :
    normName "Acme  Traders" = normName "ACME TRADERS" ∧
      normName " acme traders " = normName "ACME TRADERS" ∧
      normName "Acme  Traders" = "ACME TRADERS" :=
  ⟨(claim8_name_normalization "Acme  Traders" "ACME TRADERS" (by decide)).1,
   (claim8_name_normalization " acme traders " "ACME TRADERS" (by decide)).1,
   by decide⟩
theorem processRow_of_reasons (t : ℚ) (reg : String → Option Supplier) (i : Nat) (r : Row)
    (h : rowReasons r ≠ []) : processRow t reg i r = .invalid (mkInvalid i r) := by
  rcases hA : salesAmount r with _ | a
  · simp only [processRow, hA]
  · rcases hY : salesYear r with _ | y
    · simp only [processRow, hA, hY]
    · have hc : salesNameKey r = "" ∨ salesMonth r = "" := by
        by_contra hc
        push_neg at hc
        exact h ((rowReasons_eq_nil_iff r).mpr ⟨hc.1, by simp [hA], hc.2, by simp [hY]⟩)
      simp only [processRow, hA, hY]
      rw [if_pos hc]

theorem processRow_invalid_inv (t : ℚ) (reg : String → Option Supplier) (i : Nat) (r : Row)
    (e : InvalidEntry) (h : processRow t reg i r = .invalid e) :
    e = mkInvalid i r ∧ rowReasons r ≠ [] := by
  by_cases hr : rowReasons r = []
  · exfalso
    obtain ⟨hn, hA, hm, hY⟩ := (rowReasons_eq_nil_iff r).mp hr
    obtain ⟨a, ha⟩ := Option.isSome_iff_exists.mp hA
    obtain ⟨y, hy⟩ := Option.isSome_iff_exists.mp hY
    simp only [processRow, ha, hy] at h
    rw [if_neg (by tauto)] at h
    rcases hreg : reg (salesNameKey r) with _ | s <;> simp only [hreg] at h
    · simp at h
    · by_cases hmode : modeOf t a = "BANK"
      · rw [if_pos hmode] at h
        split at h <;> simp at h
      · rw [if_neg hmode] at h
        split at h <;> simp at h
  · rw [processRow_of_reasons t reg i r hr] at h
    exact ⟨(RowOutcome.invalid.injEq _ _).mp h.symm, hr⟩
theorem outcomeAmount_processRow (t : ℚ) (reg : String → Option Supplier) (i : Nat) (r : Row) :
    outcomeAmount (processRow t reg i r) =
      if rowReasons r = [] then money ((salesAmount r).getD 0) else 0 := by
  by_cases hr : rowReasons r = []
  · obtain ⟨hn, hA, hm, hY⟩ := (rowReasons_eq_nil_iff r).mp hr
    obtain ⟨a, ha⟩ := Option.isSome_iff_exists.mp hA
    obtain ⟨y, hy⟩ := Option.isSome_iff_exists.mp hY
    rw [if_pos hr, ha]
    simp only [processRow, ha, hy]
    rw [if_neg (by tauto)]
    rcases hreg : reg (salesNameKey r) with _ | s <;> simp only [hreg]
    · simp [outcomeAmount]
    · by_cases hmode : modeOf t a = "BANK"
      · rw [if_pos hmode]
        split <;> simp [outcomeAmount]
      · rw [if_neg hmode]
        split <;> simp [outcomeAmount]
  · rw [processRow_of_reasons t reg i r hr, if_neg hr]
    simp [outcomeAmount]

theorem processRow_bank_inv (t : ℚ) (reg : String → Option Supplier) (i : Nat) (r : Row)
    (be : BankEntry) (le : LedgerEntry) (h : processRow t reg i r = .bank be le) :
    le.companyName = be.name ∧ le.amount = be.amount ∧ le.reference = be.comment ∧
      le.period = le.month ++ " " ++ jsNumToString (le.year.getD 0) := by
  rcases hA : salesAmount r with _ | a
  · simp only [processRow, hA] at h
    exact RowOutcome.noConfusion h
  · rcases hY : salesYear r with _ | y
    · simp only [processRow, hA, hY] at h
      exact RowOutcome.noConfusion h
    · simp only [processRow, hA, hY] at h
      split at h
      · simp at h
      · rcases hreg : reg (salesNameKey r) with _ | s <;> simp only [hreg] at h
        · simp at h
        · split at h
          · split at h
            · simp at h
            · rw [RowOutcome.bank.injEq] at h
              obtain ⟨h1, h2⟩ := h
              subst h1
              subst h2
              simp [rowPeriod]
          · split at h <;> simp at h

theorem processRow_momo_inv (t : ℚ) (reg : String → Option Supplier) (i : Nat) (r : Row)
    (me : MomoEntry) (le : LedgerEntry) (h : processRow t reg i r = .momo me le) :
    le.companyName = me.name ∧ le.amount = me.amount ∧ le.reference = me.comment ∧
      le.period = le.month ++ " " ++ jsNumToString (le.year.getD 0) := by
  rcases hA : salesAmount r with _ | a
  · simp only [processRow, hA] at h
    exact RowOutcome.noConfusion h
  · rcases hY : salesYear r with _ | y
    · simp only [processRow, hA, hY] at h
      exact RowOutcome.noConfusion h
    · simp only [processRow, hA, hY] at h
      split at h
      · simp at h
      · rcases hreg : reg (salesNameKey r) with _ | s <;> simp only [hreg] at h
        · simp at h
        · split at h
          · split at h <;> simp at h
          · split at h
            · simp at h
            · rw [RowOutcome.momo.injEq] at h
              obtain ⟨h1, h2⟩ := h
              subst h1
              subst h2
              simp [rowPeriod]
theorem processRow_momo_branch (t : ℚ) (reg : String → Option Supplier) (i : Nat) (r : Row)
    (a y : ℚ) (s : Supplier)
    (hA : salesAmount r = some a) (hY : salesYear r = some y)
    (hn : salesNameKey r ≠ "") (hm : salesMonth r ≠ "")
    (hreg : reg (salesNameKey r) = some s) (hlt : a < t) :
    processRow t reg i r =
      (if clean s.momo = "" ∨ clean s.momoNumber = "" ∨ clean s.momoNames = "" then
        .exc { companyName := s.companyName, amount := money a, mode := "MOMO",
               month := salesMonth r, year := jsNumToString y,
               issue := joinWith ", "
                 ((if clean s.momo = "" then ["Missing MOMO Provider"] else []) ++
                  (if clean s.momoNumber = "" then ["Missing MOMO Number"] else []) ++
                  (if clean s.momoNames = "" then ["Missing MOMO Names"] else [])) }
      else
        .momo { name := s.companyName, momoProvider := clean s.momo,
                momoNumber := clean s.momoNumber, momoNames := clean s.momoNames,
                amount := money a, comment := rowReference r y }
              { month := salesMonth r, year := some y, period := rowPeriod r y,
                companyName := s.companyName, amount := money a, mode := "MOMO",
                reference := rowReference r y }) := by
  have hmode : modeOf t a = "MOMO" := by
    unfold modeOf
    rw [if_neg (not_le.mpr hlt)]
  simp only [processRow, hA, hY, hreg]
  rw [if_neg (by tauto), if_neg (by rw [hmode]; decide)]

theorem psf_counts (t : ℚ) (reg : String → Option Supplier) :
    ∀ (i : Nat) (sales : List Row),
      (processSalesFrom t reg i sales).bankBatch.length +
        (processSalesFrom t reg i sales).momoBatch.length +
        (processSalesFrom t reg i sales).exceptions.length +
        (processSalesFrom t reg i sales).invalidRows.length = sales.length
  | _, [] => by simp [processSalesFrom, emptyBuckets]
  | i, r :: rest => by
    have ih := psf_counts t reg (i + 1) rest
    cases ho : processRow t reg i r <;>
      (simp only [processSalesFrom, ho, bucketsCons, List.length_cons]; omega)

theorem psf_ledger_len (t : ℚ) (reg : String → Option Supplier) :
    ∀ (i : Nat) (sales : List Row),
      (processSalesFrom t reg i sales).ledgerNew.length =
        (processSalesFrom t reg i sales).bankBatch.length +
          (processSalesFrom t reg i sales).momoBatch.length
  | _, [] => by simp [processSalesFrom, emptyBuckets]
  | i, r :: rest => by
    have ih := psf_ledger_len t reg (i + 1) rest
    cases ho : processRow t reg i r <;>
      (simp only [processSalesFrom, ho, bucketsCons, List.length_cons]; omega)

theorem payableTotal_bucketsCons (o : RowOutcome) (b : Buckets) :
    payableTotal (bucketsCons o b) = outcomeAmount o + payableTotal b := by
  cases o <;> simp [bucketsCons, payableTotal, outcomeAmount] <;> ring

theorem psf_payable (t : ℚ) (reg : String → Option Supplier) :
    ∀ (i : Nat) (sales : List Row),
      payableTotal (processSalesFrom t reg i sales) = validRoundedTotal sales
  | _, [] => by simp [processSalesFrom, emptyBuckets, payableTotal, validRoundedTotal]
  | i, r :: rest => by
    have ih := psf_payable t reg (i + 1) rest
    have step : validRoundedTotal (r :: rest) =
        (if rowReasons r = [] then money ((salesAmount r).getD 0) else 0) +
          validRoundedTotal rest := by
      simp [validRoundedTotal]
    rw [step, ← outcomeAmount_processRow t reg i r]
    simp only [processSalesFrom, payableTotal_bucketsCons, ih]
theorem psf_invalid_mem (t : ℚ) (reg : String → Option Supplier) :
    ∀ (n : Nat) (sales : List Row) (e : InvalidEntry),
      e ∈ (processSalesFrom t reg n sales).invalidRows →
      ∃ i r, sales.get? i = some r ∧ rowReasons r ≠ [] ∧ e.rowNumber = n + i + 2 ∧
        e.issue = joinWith "; " (rowReasons r)
  | n, [], e => by simp [processSalesFrom, emptyBuckets]
  | n, rr :: rest, e => by
    intro hmem
    simp only [processSalesFrom] at hmem
    cases ho : processRow t reg n rr <;> rw [ho] at hmem <;> simp only [bucketsCons] at hmem
    case invalid e0 =>
      rcases List.mem_cons.mp hmem with he | hrest
      · obtain ⟨hd, hr⟩ := processRow_invalid_inv t reg n rr e0 ho
        subst he
        subst hd
        exact ⟨0, rr, rfl, hr, by simp [mkInvalid], rfl⟩
      · obtain ⟨i, r', h1, h2, h3, h4⟩ := psf_invalid_mem t reg (n + 1) rest e hrest
        exact ⟨i + 1, r', by simpa using h1, h2, by omega, h4⟩
    all_goals
      obtain ⟨i, r', h1, h2, h3, h4⟩ := psf_invalid_mem t reg (n + 1) rest e hmem
      exact ⟨i + 1, r', by simpa using h1, h2, by omega, h4⟩

theorem psf_invalid_mem_of (t : ℚ) (reg : String → Option Supplier) :
    ∀ (n : Nat) (sales : List Row) (i : Nat) (r : Row),
      sales.get? i = some r → rowReasons r ≠ [] →
      mkInvalid (n + i) r ∈ (processSalesFrom t reg n sales).invalidRows
  | _, [], i, r => by simp
  | n, rr :: rest, 0, r => by
    intro hget hne
    have hrr : rr = r := by simpa using hget
    subst hrr
    simp only [processSalesFrom, processRow_of_reasons t reg n rr hne, bucketsCons]
    simp
  | n, rr :: rest, i + 1, r => by
    intro hget hne
    have ih := psf_invalid_mem_of t reg (n + 1) rest i r (by simpa using hget) hne
    have harith : n + (i + 1) = (n + 1) + i := by omega
    rw [harith]
    cases ho : processRow t reg n rr <;>
      (simp only [processSalesFrom, ho, bucketsCons]; simp [ih])
/-- C1: every pass partitions the non-empty input rows exhaustively:
the bank batch, momo batch, exceptions and invalid rows together
contain exactly one entry per non-empty row, so the built-in
verification check always passes. -/
theorem claim1_exhaustive_partition (t : ℚ) (reg : String → Option Supplier)
    (salesRaw : List Row) :
    verificationOk ((salesRaw.filter (fun r => !isAllEmptyRow r)).length)
      (processSales t reg (salesRaw.filter (fun r => !isAllEmptyRow r))) = true := by
  unfold verificationOk processSales
  rw [decide_eq_true_eq]
  exact (psf_counts t reg 0 (salesRaw.filter (fun r => !isAllEmptyRow r))).symm

/-- C3 (amended): the sum of the `AMOUNT` fields over the bank batch,
momo batch and exceptions equals the sum, over all valid (non-Invalid)
non-empty rows, of the parsed amount rounded to two decimals — exact
equality.  The originally claimed 0.01 bound against the unrounded
amounts fails once three or more rows each round up (see the
counterexample). -/
theorem claim3_totals_conserved_rounded (t : ℚ) (reg : String → Option Supplier)
    (salesRaw : List Row) :
    payableTotal (processSales t reg (salesRaw.filter (fun r => !isAllEmptyRow r))) =
      validRoundedTotal (salesRaw.filter (fun r => !isAllEmptyRow r)) :=
  psf_payable t reg 0 _

/-- C3 counterexample: with an empty registry and three valid rows of
amount `1.006` each, the bucket totals come to `3.03` while the parsed
amounts sum to `3.018`; the difference `0.012` exceeds the claimed
`0.01` tolerance. -/
theorem claim3_tolerance_counterexample :
    ¬ (|payableTotal (processSales 400 (buildSupplierMap [])
          (cexRoundingSales.filter (fun r => !isAllEmptyRow r))) -
        validParsedTotal (cexRoundingSales.filter (fun r => !isAllEmptyRow r))| ≤ 1 / 100) := by
  with_unfolding_all decide
/-- C4 (amended): every invalid entry reports, in its `ISSUE` field,
the full `"; "`-joined list of violated rules (not only the first),
and its `ROW_NUMBER` is 2 plus the row's 0-based position among the
non-empty rows of the upload (one header row plus a 1-based position
in the filtered list).  This equals the original row number in the
upload only when no fully-empty row precedes the row: the original
claim's "original row number" reading fails on such inputs (see the
counterexample). -/
theorem claim4_invalid_issue_rownumber (t : ℚ) (reg : String → Option Supplier)
    (salesRaw : List Row) :
    (∀ e ∈ (processSales t reg (salesRaw.filter (fun rr => !isAllEmptyRow rr))).invalidRows,
      ∃ i r, (salesRaw.filter (fun rr => !isAllEmptyRow rr)).get? i = some r ∧
        rowReasons r ≠ [] ∧ e.rowNumber = i + 2 ∧
        e.issue = joinWith "; " (rowReasons r)) ∧
    (∀ i r, (salesRaw.filter (fun rr => !isAllEmptyRow rr)).get? i = some r →
      rowReasons r ≠ [] →
      mkInvalid i r ∈
        (processSales t reg (salesRaw.filter (fun rr => !isAllEmptyRow rr))).invalidRows) := by
  constructor
  · intro e hmem
    obtain ⟨i, r, h1, h2, h3, h4⟩ := psf_invalid_mem t reg 0 _ e hmem
    exact ⟨i, r, h1, h2, by omega, h4⟩
  · intro i r hget hne
    have := psf_invalid_mem_of t reg 0 _ i r hget hne
    simpa using this

theorem claim4_invalid_issue_rownumber_witness :
    ∃ i r, (cexShiftSales.filter (fun rr => !isAllEmptyRow rr)).get? i = some r ∧
      rowReasons r ≠ [] ∧ (mkInvalid 0 wRowBad).rowNumber = i + 2 ∧
      (mkInvalid 0 wRowBad).issue = joinWith "; " (rowReasons r) :=
  (claim4_invalid_issue_rownumber 400 (buildSupplierMap []) cexShiftSales).1
    (mkInvalid 0 wRowBad) (by decide)

/-- C4 counterexample: in an upload whose first row is fully empty and
whose second row is invalid, the invalid report carries `ROW_NUMBER`
2 (its position among non-empty rows plus the header offset), not 3 =
1-based original position (2) + header (1) as the claim's "original
row number of that row in the uploaded input" requires. -/
theorem claim4_rownumber_counterexample :
    ((processSales 400 (buildSupplierMap [])
        (cexShiftSales.filter (fun rr => !isAllEmptyRow rr))).invalidRows.map
        (fun e => e.rowNumber) = [2]) ∧
      cexShiftSales.get? 1 = some wRowBad ∧ ¬ ((2 : Nat) = 1 + 2) := by
  refine ⟨by decide, by decide, by decide⟩

/-- C5: a valid MOMO-classified record whose supplier is in the
registry yields a momo batch entry exactly when the supplier's
provider, number and holder names are all non-empty after trimming;
otherwise it yields an exception whose issue names each missing field. -/
theorem claim5_momo_field_completeness (t : ℚ) (reg : String → Option Supplier)
    (i : Nat) (r : Row) (a y : ℚ) (s : Supplier)
    (hA : salesAmount r = some a) (hY : salesYear r = some y)
    (hn : salesNameKey r ≠ "") (hm : salesMonth r ≠ "")
    (hreg : reg (salesNameKey r) = some s) (hlt : a < t) :
    ((∃ me le, processRow t reg i r = .momo me le) ↔
      (clean s.momo ≠ "" ∧ clean s.momoNumber ≠ "" ∧ clean s.momoNames ≠ "")) ∧
    ((clean s.momo = "" ∨ clean s.momoNumber = "" ∨ clean s.momoNames = "") →
      processRow t reg i r =
        .exc { companyName := s.companyName, amount := money a, mode := "MOMO",
               month := salesMonth r, year := jsNumToString y,
               issue := joinWith ", "
                 ((if clean s.momo = "" then ["Missing MOMO Provider"] else []) ++
                  (if clean s.momoNumber = "" then ["Missing MOMO Number"] else []) ++
                  (if clean s.momoNames = "" then ["Missing MOMO Names"] else [])) }) := by
  have heq := processRow_momo_branch t reg i r a y s hA hY hn hm hreg hlt
  by_cases hc : clean s.momo = "" ∨ clean s.momoNumber = "" ∨ clean s.momoNames = ""
  · rw [if_pos hc] at heq
    constructor
    · rw [heq]
      constructor
      · rintro ⟨me, le, hfalse⟩
        exact absurd hfalse (by simp)
      · intro h3
        exact absurd hc (not_or_intro h3.1 (not_or_intro h3.2.1 h3.2.2))
    · intro _
      exact heq
  · rw [if_neg hc] at heq
    push_neg at hc
    constructor
    · exact ⟨fun _ => hc, fun _ => ⟨_, _, heq⟩⟩
    · intro hbad
      exact absurd hbad (not_or_intro hc.1 (not_or_intro hc.2.1 hc.2.2))

set_option maxHeartbeats 2000000 in
set_option maxRecDepth 8000 in
theorem claim5_momo_field_completeness_witness :
    ∃ me le, processRow 400 wRegistry 0 wRowMomo = RowOutcome.momo me le :=
  (claim5_momo_field_completeness 400 wRegistry 0 wRowMomo 350 2026 wSupplierFull
      (by with_unfolding_all decide) (by with_unfolding_all decide)
      (by decide) (by decide) (by decide) (by norm_num)).1.mpr
    (by refine ⟨by decide, by decide, by decide⟩)

/-- C9: every bank or momo batch emission appends exactly one ledger
entry (so the new-ledger count is the bank count plus the momo count),
and the mirrored ledger entry carries the same company display name,
the same formatted amount, the same reference as the batch entry's
comment, and the period the reference was built from. -/
theorem claim9_ledger_mirrors_batches (t : ℚ) (reg : String → Option Supplier) :
    (∀ sales : List Row,
      (processSales t reg sales).ledgerNew.length =
        (processSales t reg sales).bankBatch.length +
          (processSales t reg sales).momoBatch.length) ∧
    (∀ i r be le, processRow t reg i r = .bank be le →
      le.companyName = be.name ∧ le.amount = be.amount ∧ le.reference = be.comment ∧
        le.period = le.month ++ " " ++ jsNumToString (le.year.getD 0)) ∧
    (∀ i r me le, processRow t reg i r = .momo me le →
      le.companyName = me.name ∧ le.amount = me.amount ∧ le.reference = me.comment ∧
        le.period = le.month ++ " " ++ jsNumToString (le.year.getD 0)) :=
  ⟨fun sales => psf_ledger_len t reg 0 sales,
   fun i r be le h => processRow_bank_inv t reg i r be le h,
   fun i r me le h => processRow_momo_inv t reg i r me le h⟩

set_option maxHeartbeats 2000000 in
set_option maxRecDepth 8000 in
theorem claim9_ledger_mirrors_batches_witness :
    wBankLedgerEntry.companyName = wBankEntry.name ∧
      wBankLedgerEntry.amount = wBankEntry.amount ∧
      wBankLedgerEntry.reference = wBankEntry.comment ∧
      wBankLedgerEntry.period =
        wBankLedgerEntry.month ++ " " ++ jsNumToString (wBankLedgerEntry.year.getD 0) :=
  (claim9_ledger_mirrors_batches 400 wRegistry).2.1 0 wRowBank wBankEntry wBankLedgerEntry
    (by with_unfolding_all decide)
theorem ledgerLe_eq_true_iff (a b : LedgerEntry) :
    ledgerLe a b = true ↔
      (yearKey a < yearKey b ∨ (yearKey a = yearKey b ∧ monthKeyOf a ≤ monthKeyOf b)) := by
  simp [ledgerLe]

theorem ledgerLe_trans (a b c : LedgerEntry)
    (hab : ledgerLe a b = true) (hbc : ledgerLe b c = true) : ledgerLe a c = true := by
  rw [ledgerLe_eq_true_iff] at *
  rcases hab with h1 | ⟨h1, h2⟩ <;> rcases hbc with h3 | ⟨h3, h4⟩
  · exact Or.inl (h1.trans h3)
  · exact Or.inl (h1.trans_eq h3)
  · exact Or.inl (h1 ▸ h3)
  · exact Or.inr ⟨h1.trans h3, h2.trans h4⟩

theorem ledgerLe_total (a b : LedgerEntry) : (ledgerLe a b || ledgerLe b a) = true := by
  simp only [Bool.or_eq_true, ledgerLe_eq_true_iff]
  rcases lt_trichotomy (yearKey a) (yearKey b) with h | h | h
  · exact Or.inl (Or.inl h)
  · rcases Nat.le_total (monthKeyOf a) (monthKeyOf b) with hm | hm
    · exact Or.inl (Or.inr ⟨h, hm⟩)
    · exact Or.inr (Or.inr ⟨h.symm, hm⟩)
  · exact Or.inr (Or.inl h)

theorem findIdx?_some_lt {α : Type} (p : α → Bool) :
    ∀ (l : List α) (s i : Nat), List.findIdx? p l s = some i → i < s + l.length := by
  intro l
  induction l with
  | nil => intro s i h; simp [List.findIdx?] at h
  | cons x xs ih =>
    intro s i h
    rw [List.findIdx?_cons] at h
    split at h
    · cases h
      simp
    · have := ih (s + 1) i h
      simp only [List.length_cons]
      omega

theorem monthKeyOf_lt_of_recognized (e : LedgerEntry) (h : monthIndexOpt e.month ≠ none) :
    monthKeyOf e < 12 := by
  rcases hfi : monthIndexOpt e.month with _ | i
  · exact absurd hfi h
  · have : i < 0 + MONTHS.length := findIdx?_some_lt _ MONTHS 0 i hfi
    unfold monthKeyOf
    rw [hfi]
    simpa [MONTHS] using this

/-- C6: the merged ledger is the stable sort of the normalized
existing ledger followed by the new entries, under the comparator's
key: ascending numeric year (`Number(YEAR) || 0`, so a missing year
keys as 0), then calendar-month position within a year.  It is a
permutation of the concatenation; entries whose month is not a
recognized month name sort after every recognized month of the same
year; and entries with equal keys keep their pre-sort relative order
(the filter at every key is unchanged). -/
theorem claim6_merged_ledger_order (ex nw : List LedgerEntry) :
    ((mergeLedger ex nw).Pairwise fun a b =>
        yearKey a < yearKey b ∨ (yearKey a = yearKey b ∧ monthKeyOf a ≤ monthKeyOf b)) ∧
    (mergeLedger ex nw).Perm (ex ++ nw) ∧
    (∀ k : ℚ × Nat, (mergeLedger ex nw).filter (fun e => ledgerKey e = k) =
        (ex ++ nw).filter (fun e => ledgerKey e = k)) ∧
    ((mergeLedger ex nw).Pairwise fun a b =>
        yearKey a = yearKey b → monthIndexOpt b.month ≠ none → monthIndexOpt a.month ≠ none) := by
  have hsorted : ((ex ++ nw).mergeSort ledgerLe).Pairwise (fun a b => ledgerLe a b = true) :=
    List.sorted_mergeSort ledgerLe_trans ledgerLe_total (ex ++ nw)
  have hperm : List.Perm ((ex ++ nw).mergeSort ledgerLe) (ex ++ nw) :=
    List.mergeSort_perm (ex ++ nw) ledgerLe
  have hfirst : (mergeLedger ex nw).Pairwise fun a b =>
      yearKey a < yearKey b ∨ (yearKey a = yearKey b ∧ monthKeyOf a ≤ monthKeyOf b) :=
    hsorted.imp (fun h => (ledgerLe_eq_true_iff _ _).mp h)
  refine ⟨hfirst, hperm, ?_, ?_⟩
  · intro k
    have hApw : ((ex ++ nw).filter (fun e => ledgerKey e = k)).Pairwise
        (fun a b => ledgerLe a b = true) := by
      apply List.pairwise_of_forall_mem_list
      intro a ha b hb
      have hka : ledgerKey a = k := by simpa using (List.mem_filter.mp ha).2
      have hkb : ledgerKey b = k := by simpa using (List.mem_filter.mp hb).2
      have hk : ledgerKey a = ledgerKey b := hka.trans hkb.symm
      rw [ledgerKey, ledgerKey, Prod.mk.injEq] at hk
      rw [ledgerLe_eq_true_iff]
      exact Or.inr ⟨hk.1, le_of_eq hk.2⟩
    have hsub : List.Sublist ((ex ++ nw).filter (fun e => ledgerKey e = k)) (ex ++ nw) :=
      List.filter_sublist _
    have h1 := List.sublist_mergeSort ledgerLe_trans ledgerLe_total hApw hsub
    have h2 := List.Sublist.filter (fun e => decide (ledgerKey e = k)) h1
    rw [List.filter_filter] at h2
    have hAfix : ((ex ++ nw).filter fun e =>
        decide (ledgerKey e = k) && decide (ledgerKey e = k)) =
        ((ex ++ nw).filter fun e => decide (ledgerKey e = k)) := by
      apply List.filter_congr
      intro x _
      cases decide (ledgerKey x = k) <;> rfl
    rw [hAfix] at h2
    have hlen : (((ex ++ nw).mergeSort ledgerLe).filter
        (fun e => ledgerKey e = k)).length =
        ((ex ++ nw).filter (fun e => ledgerKey e = k)).length :=
      (hperm.filter _).length_eq
    exact (h2.eq_of_length hlen.symm).symm
  · refine hfirst.imp ?_
    intro a b hd hyeq hbrec
    by_contra hanone
    rcases hd with hlt | ⟨_, hle⟩
    · rw [hyeq] at hlt
      exact lt_irrefl _ hlt
    · have ha99 : monthKeyOf a = 99 := by
        unfold monthKeyOf
        rw [hanone]
        rfl
      have hb12 : monthKeyOf b < 12 := monthKeyOf_lt_of_recognized b hbrec
      omega

theorem upgradeLedgerRow_none_iff (r : Row) :
    upgradeLedgerRow r = none ↔ ledgerRowValid r = false := by
  unfold upgradeLedgerRow ledgerRowValid
  cases hA : ledgerAmount r <;> by_cases hc : ledgerCompany r = "" <;> simp [hA, hc]

theorem normalizeLedgerRows_length (rows : List Row) :
    (normalizeLedgerRows rows).length = (rows.filter ledgerRowValid).length := by
  induction rows with
  | nil => simp [normalizeLedgerRows]
  | cons r rest ih =>
    simp only [normalizeLedgerRows, List.filterMap_cons, List.filter_cons] at *
    cases hA : upgradeLedgerRow r with
    | none =>
      have hv : ledgerRowValid r = false := (upgradeLedgerRow_none_iff r).mp hA
      simp [hv, ih]
    | some e =>
      have hv : ledgerRowValid r = true := by
        cases h : ledgerRowValid r
        · exact absurd ((upgradeLedgerRow_none_iff r).mpr h) (by simp [hA])
        · rfl
      simp [hv, ih]

/-- C10 (implicit): when the existing ledger is normalized before the
merge, every raw row whose company is empty after trimming or whose
amount does not convert to a finite number is dropped — a row survives
exactly when it is valid — so the merged ledger holds one entry per
valid historical row plus the new entries, with nothing reported for
the dropped rows (the result carries no error or count for them). -/
theorem claim10_historical_rows_dropped (rows : List Row) (nw : List LedgerEntry) :
    (∀ r : Row, upgradeLedgerRow r = none ↔ ledgerRowValid r = false) ∧
    (normalizeLedgerRows rows).length = (rows.filter ledgerRowValid).length ∧
    (mergeLedger (normalizeLedgerRows rows) nw).length =
      (rows.filter ledgerRowValid).length + nw.length := by
  refine ⟨upgradeLedgerRow_none_iff, normalizeLedgerRows_length rows, ?_⟩
  unfold mergeLedger sortLedger
  rw [List.length_mergeSort, List.length_append, normalizeLedgerRows_length]
